import Mathlib

/-
Verification of the dependency-integration engine of `wasm-rpc-stubgen`
(`src/commands/dependencies.rs`, function `add_stub_dependency` and its helper
`is_self_stub`).

Modelling conventions:
* Filesystem paths are lists of components; `std::path::Path` operations are
  modelled component-wise.
* External collaborators (WIT resolution, stub source generation, the import
  remover's text semantics, cargo manifest validation/patching, file reads of
  the stub tree) are supplied by an `Env` record of their results.
* Fallible Rust code is modelled in `Except Failure`; a Rust panic
  (`expect` / `unwrap_or_else` with a panicking closure) is a distinct
  `Failure.panic` constructor, because a panic is not a `Result` error.
* The destination tree's filesystem is threaded explicitly as a map from
  target path to file content; `add_stub_dependency` returns its result
  together with the final filesystem, so early failures demonstrably leave
  the tree untouched.
-/

namespace StubGen

/-- Paths modelled as lists of components, mirroring `std::path::Path`
operations component-wise: `join` appends a component, `parent` drops the last
one, `file_name` is the last component, `strip_prefix` removes a
component-wise root. -/
abbrev Path := List String

/-- Models `Path::parent`: `none` for the empty path, otherwise the path
without its last component. -/
def pathParent (p : Path) : Option Path :=
  if p = [] then none else some p.dropLast

/-- Models `Path::file_name`: the last component, when there is one. -/
def pathFileName (p : Path) : Option String :=
  p.getLast?

/-- Models `Path::strip_prefix`: drops `root` when it is a component-wise
root of `p`, otherwise fails. -/
def stripRoot (p root : Path) : Option Path :=
  if p.take root.length = root then some (p.drop root.length) else none

/-- Models Rust `str::strip_suffix`: `some` of the shortened string exactly
when `suffix` is a suffix of `s`; operates on the character-list
representation. -/
def stripSuffixStr (s suffix : String) : Option String :=
  if suffix.data.isSuffixOf s.data then
    some ⟨s.data.take (s.data.length - suffix.data.length)⟩
  else none

/-- `wit_parser::PackageName`: a namespace, a simple name and an optional
version; equality is structural. -/
structure PackageName where
  «namespace» : String
  name : String
  version : Option String
deriving DecidableEq

/-- The `Display` implementation of `wit_parser::PackageName`:
`namespace:name`, followed by `@version` when a version is present. This is
what a `{}` format argument of a whole `PackageName` value expands to. -/
def PackageName.display (p : PackageName) : String :=
  p.«namespace» ++ ":" ++ p.name ++
    (match p.version with
     | none => ""
     | some v => "@" ++ v)

/-- The distinct failure kinds `add_stub_dependency` produces as `anyhow`
errors. -/
inductive ErrKind where
  | ambiguousSelfStub
  | missingFileName
  | pathStrip
  | sourceRead
  | manifestKind
  | cargoTomlMissing
  | destParentMissing
  | cargoUpdate
deriving DecidableEq

/-- Outcome of a fallible Rust computation: an `anyhow` error (`err`) or a
Rust panic (`panic`), kept distinct because a panic is not returned as a
`Result` error. -/
inductive Failure where
  | err (kind : ErrKind)
  | panic (msg : String)
deriving DecidableEq

/-- Symbolic model of the external `wit::import_remover` factory: the returned
transform is identified by the package-name string whose imports it strips;
its text-level semantics is supplied by the environment (`Env.applyRemover`). -/
structure ImportRemover where
  pkg : String
deriving DecidableEq

/-- The external `wit::import_remover` factory itself. -/
def import_remover (pkg : String) : ImportRemover :=
  ⟨pkg⟩

/-- `wit_resolve::ResolvedWitDir` (that module is not among the inspected
sources; the fields are modelled from their uses in `dependencies.rs`):
the package name/id pairs in iteration order (`resolve.package_names`), the
per-id source file lists (`sources`), the main package id (`package_id`), and
the main package's name (`main_package()?.name`, resolution assumed to have
succeeded since both claims and code treat resolution as an external step). -/
structure ResolvedWitDir where
  packageNames : List (PackageName × Nat)
  sources : List (Nat × List Path)
  packageId : Nat
  mainName : PackageName

/-- Modelled from the spec: the `fs` module's `OverwriteSafeAction` is not
among the inspected sources; spec section 3 lists the three action forms
CopyFile(source, target), CopyFileTransformed(source, target, transform) and
WriteFile(content, target). -/
inductive OverwriteSafeAction where
  | CopyFile (source target : Path)
  | CopyFileTransformed (source target : Path) (transform : ImportRemover)
  | WriteFile (content : String) (target : Path)
deriving DecidableEq

/-- The target path of an action. -/
def OverwriteSafeAction.target : OverwriteSafeAction → Path
  | .CopyFile _ t => t
  | .CopyFileTransformed _ t _ => t
  | .WriteFile _ t => t

/-- Modelled from the spec: the `fs` module's `OverwriteSafeActionPlan` is not
among the inspected sources; spec section 3 lists the dispositions Create,
Overwrite and SkipSameContent. -/
inductive OverwriteSafeActionPlan where
  | Create
  | Overwrite
  | SkipSameContent
deriving DecidableEq

/-- Results of the external collaborators consumed by `add_stub_dependency`:
the two regenerations performed inside `is_self_stub` (`ImportRootTypes` and
`InlineRootTypes` mode, temp-dir setup failures folded into them), the read of
the stub root's `_stub.wit`, the `InlineRootTypes` regeneration performed in
the self-stub branch of the main loop, reads of the stub tree's source files,
the text-level semantics of import-remover transforms, and the cargo manifest
state and updater. -/
structure Env where
  destStubImported : Except Failure String
  destStubInlined : Except Failure String
  stubWitRead : Except Failure String
  inlinedSelfStubForWrite : Except Failure String
  readFile : Path → Option String
  applyRemover : ImportRemover → String → String
  cargoTomlExistsAsFile : Bool
  isCargoComponentToml : Bool
  addDepsResult : List Path → Except Failure Unit

/-- Modelled from the spec: the destination-tree filesystem state the Action
Planner/Executor (`fs` module, not among the inspected sources) reads and
writes - a map from target path to current file content. -/
abbrev Fs := Path → Option String

/-- Write one file: the target path now holds `c`, all other paths are
unchanged. -/
def Fs.write (fs : Fs) (t : Path) (c : String) : Fs :=
  fun p => if p = t then some c else fs p

/-- The two resolved directories, the two roots and the environment - the
inputs of one `add_stub_dependency` call. -/
structure Ctx where
  stubWitRoot : Path
  destWitRoot : Path
  stub : ResolvedWitDir
  dest : ResolvedWitDir
  env : Env

/-- `UpdateCargoToml` from `dependencies.rs`. -/
inductive UpdateCargoToml where
  | Update
  | UpdateIfExists
  | NoUpdate
deriving DecidableEq

/-- Lines 56-59: the destination's synthesized stub package name - the main
package name with `-stub` appended to its simple name (namespace and version
kept). -/
def destStubPackageName (destMain : PackageName) : PackageName :=
  { destMain with name := destMain.name ++ "-stub" }

/-- Lines 46-50: the import remover for the destination's stub package.
The source formats it as namespace, then `:`, then a `{}` argument holding the
whole `PackageName` (which renders via its `Display` as `namespace:name`),
then `-stub`. -/
def dest_stub_import_remover (destMain : PackageName) : ImportRemover :=
  import_remover (destMain.«namespace» ++ ":" ++ destMain.display ++ "-stub")

/-- The destination's dependency area `dest_wit_root/deps` (line 42). -/
def destDepsDir (c : Ctx) : Path :=
  c.destWitRoot ++ ["deps"]

/-- Lines 210-229 (`is_self_stub`): regenerate the destination's self-stub in
both generation modes (in a temp dir) and compare byte-for-byte against the
stub root's `_stub.wit` text; the regeneration and read results come from the
environment, sequenced in source order. -/
def is_self_stub (env : Env) : Except Failure Bool :=
  match env.destStubImported with
  | .error e => .error e
  | .ok imported =>
    match env.destStubInlined with
    | .error e => .error e
    | .ok inlined =>
      match env.stubWitRead with
      | .error e => .error e
      | .ok s => .ok (decide (s = imported ∨ s = inlined))

/-- Lines 61-82: compute the stub's logical target name by stripping the
`-stub` suffix from its main package name (the `expect` panics when the suffix
is absent); when that name equals the destination's main package name but the
content comparison does not confirm a self-stub, fail with the
ambiguous-self-stub error. The content check's own failure propagates only
when the name check matched, because `&&` short-circuits before the `?`. -/
def checkSelfStub (c : Ctx) : Except Failure Unit :=
  match stripSuffixStr c.stub.mainName.name "-stub" with
  | none => .error (.panic "Unexpected stub package name")
  | some stripped =>
    let stubTargetName : PackageName := { c.stub.mainName with name := stripped }
    let byContent := is_self_stub c.env
    if c.dest.mainName = stubTargetName then
      match byContent with
      | .error e => .error e
      | .ok b => if b then .ok () else .error (.err .ambiguousSelfStub)
    else .ok ()

/-- Modelled from the spec: `OverwriteSafeAction::copy_file_transformed`
(`fs` module, not among the inspected sources) constructs a
`CopyFileTransformed` action; per spec section 4.2 the prospective content
(read plus transform) is resolved at execution time, so construction itself
succeeds. The source's constructor returns a `Result`, hence the `Except`
shape. -/
def copy_file_transformed (source target : Path) (t : ImportRemover) :
    Except Failure OverwriteSafeAction :=
  .ok (.CopyFileTransformed source target t)

/-- Lines 128-147: the stub-main branch - one `CopyFile` per source file,
preserving the file name, into the per-package directory; a source path with
no file name is an error. -/
def copyActions (targetDir : Path) : List Path → Except Failure (List OverwriteSafeAction)
  | [] => .ok []
  | s :: rest =>
    match pathFileName s with
    | none => .error (.err .missingFileName)
    | some fname =>
      match copyActions targetDir rest with
      | .error e => .error e
      | .ok acts => .ok (.CopyFile s (targetDir ++ [fname]) :: acts)

/-- Lines 148-166: the other-package branch - re-root each source file under
the destination root and copy it transformed with the destination-stub import
remover; a source outside the stub root is an error. -/
def transformedActions (c : Ctx) : List Path → Except Failure (List OverwriteSafeAction)
  | [] => .ok []
  | s :: rest =>
    match stripRoot s c.stubWitRoot with
    | none => .error (.err .pathStrip)
    | some rel =>
      match copy_file_transformed s (c.destWitRoot ++ rel)
          (dest_stub_import_remover c.dest.mainName) with
      | .error e => .error e
      | .ok a =>
        match transformedActions c rest with
        | .error e => .error e
        | .ok acts => .ok (a :: acts)

/-- Lines 85-167, one iteration of the main loop: look up the package's
sources (a missing entry panics), then classify: the destination package
itself contributes nothing; the destination's stub package contributes a
single `WriteFile` of the freshly inlined self-stub into
`deps/<namespace>_<name>/_stub.wit`; the stub's main package contributes plain
copies; every other package contributes transformed copies. -/
def actionsForPackage (c : Ctx) (pkg : PackageName × Nat) :
    Except Failure (List OverwriteSafeAction) :=
  match c.stub.sources.lookup pkg.2 with
  | none => .error (.panic ("Failed to get package sources for " ++ pkg.1.display))
  | some sources =>
    if pkg.1 = c.dest.mainName then
      .ok []
    else if pkg.1 = destStubPackageName c.dest.mainName then
      match c.env.inlinedSelfStubForWrite with
      | .error e => .error e
      | .ok inlinedSelfStubWit =>
        .ok [.WriteFile inlinedSelfStubWit
          (destDepsDir c ++ [pkg.1.«namespace» ++ "_" ++ pkg.1.name, "_stub.wit"])]
    else if pkg.2 = c.stub.packageId then
      copyActions (destDepsDir c ++ [pkg.1.«namespace» ++ "_" ++ pkg.1.name]) sources
    else
      transformedActions c sources

/-- The full action list: the per-package contributions in iteration order of
`resolve.package_names` (lines 84-167). -/
def buildActions (c : Ctx) : List (PackageName × Nat) → Except Failure (List OverwriteSafeAction)
  | [] => .ok []
  | p :: rest =>
    match actionsForPackage c p with
    | .error e => .error e
    | .ok acts =>
      match buildActions c rest with
      | .error e => .error e
      | .ok more => .ok (acts ++ more)

/-- Modelled from the spec: section 4.2's content resolution for an action of
the `fs` module (not among the inspected sources) - read the source file,
apply the transform, or use the literal content. -/
def prospectiveContent (env : Env) : OverwriteSafeAction → Except Failure String
  | .CopyFile s _ =>
    match env.readFile s with
    | some c => .ok c
    | none => .error (.err .sourceRead)
  | .CopyFileTransformed s _ t =>
    match env.readFile s with
    | some c => .ok (env.applyRemover t c)
    | none => .error (.err .sourceRead)
  | .WriteFile c _ => .ok c

/-- Modelled from the spec: section 4.2's disposition - Create when the target
is absent, SkipSameContent when present with identical content, Overwrite
otherwise. -/
def planFor (existing : Option String) (content : String) : OverwriteSafeActionPlan :=
  match existing with
  | none => .Create
  | some e => if e = content then .SkipSameContent else .Overwrite

/-- Modelled from the spec: executing a single action per section 4.2 -
Create is always performed, SkipSameContent is never performed, Overwrite is
performed only when `overwrite` is true and otherwise lands in the refused
list; returns the optional refused action, the disposition reported to the
notifier, and the new filesystem. -/
def execStep (env : Env) (overwrite : Bool) (a : OverwriteSafeAction) (fs : Fs) :
    Except Failure (Option OverwriteSafeAction × OverwriteSafeActionPlan × Fs) :=
  match prospectiveContent env a with
  | .error e => .error e
  | .ok c =>
    match planFor (fs a.target) c with
    | .Create => .ok (none, .Create, Fs.write fs a.target c)
    | .SkipSameContent => .ok (none, .SkipSameContent, fs)
    | .Overwrite =>
      if overwrite then .ok (none, .Overwrite, Fs.write fs a.target c)
      else .ok (some a, .Overwrite, fs)

/-- Modelled from the spec: `OverwriteSafeActions::run` of the `fs` module
(not among the inspected sources), per section 4.2 - execute the actions in
list order, collecting the refused actions and the per-action dispositions; a
failure to resolve prospective content aborts the run, keeping the writes
performed so far. -/
def runActions (env : Env) (overwrite : Bool) :
    List OverwriteSafeAction → Fs →
      Except Failure
        (List OverwriteSafeAction × List (OverwriteSafeAction × OverwriteSafeActionPlan)) × Fs
  | [], fs => (.ok ([], []), fs)
  | a :: rest, fs =>
    match execStep env overwrite a fs with
    | .error e => (.error e, fs)
    | .ok (refusedHead, plan, fs1) =>
      match runActions env overwrite rest fs1 with
      | (.error e, fs2) => (.error e, fs2)
      | (.ok (refused, plans), fs2) =>
        (.ok (refusedHead.elim refused (fun x => x :: refused), (a, plan) :: plans), fs2)

/-- Lines 185-204: the manifest update step. When the destination root has a
parent and `Cargo.toml` exists there as a file: `NoUpdate` only warns,
otherwise the manifest must be a recognized cargo-component project and the
planned target paths are handed to the updater. When the manifest is absent
(or the parent does not exist), only policy `Update` is an error. Returns the
paths handed to the updater, `none` when it was not invoked. -/
def manifestStep (env : Env) (destWitRoot : Path) (update_cargo_toml : UpdateCargoToml)
    (targets : List Path) : Except Failure (Option (List Path)) :=
  match pathParent destWitRoot with
  | some _ =>
    if env.cargoTomlExistsAsFile then
      if update_cargo_toml = .NoUpdate then .ok none
      else
        if env.isCargoComponentToml then
          match env.addDepsResult targets with
          | .error e => .error e
          | .ok _ => .ok (some targets)
        else .error (.err .manifestKind)
    else
      if update_cargo_toml = .Update then .error (.err .cargoTomlMissing)
      else .ok none
  | none =>
    if update_cargo_toml = .Update then .error (.err .destParentMissing)
    else .ok none

/-- The observable outcome of a successful `add_stub_dependency` call: the
refused actions, the per-action dispositions, the paths handed to the manifest
updater (`none` when it was not invoked), and the planned target paths. -/
structure RunInfo where
  refused : List OverwriteSafeAction
  plans : List (OverwriteSafeAction × OverwriteSafeActionPlan)
  manifestTargets : Option (List Path)
  targets : List Path
deriving DecidableEq

/-- Lines 33-207 (`add_stub_dependency`): the self-stub name/content check,
then the fully built action list, then the target collection (taken from the
action list before execution), then execution, then the manifest step. The
final filesystem is returned alongside the result; failures before execution
leave it untouched. -/
def add_stub_dependency (c : Ctx) (overwrite : Bool) (update_cargo_toml : UpdateCargoToml)
    (fs : Fs) : Except Failure RunInfo × Fs :=
  match checkSelfStub c with
  | .error e => (.error e, fs)
  | .ok _ =>
    match buildActions c c.stub.packageNames with
    | .error e => (.error e, fs)
    | .ok actions =>
      let targets := actions.map OverwriteSafeAction.target
      match runActions c.env overwrite actions fs with
      | (.error e, fs1) => (.error e, fs1)
      | (.ok (refused, plans), fs1) =>
        match manifestStep c.env c.destWitRoot update_cargo_toml targets with
        | .error e => (.error e, fs1)
        | .ok mt =>
          (.ok { refused := refused, plans := plans, manifestTargets := mt,
                 targets := targets }, fs1)

/-! Concrete fixtures used by counterexamples and witnesses. -/

/-- An environment whose collaborators all succeed with fixed values and whose
manifest is absent. -/
def baseEnv : Env where
  destStubImported := .ok "imported"
  destStubInlined := .ok "inlined"
  stubWitRead := .ok "imported"
  inlinedSelfStubForWrite := .ok "inlined-self-stub"
  readFile := fun _ => none
  applyRemover := fun _ s => s
  cargoTomlExistsAsFile := false
  isCargoComponentToml := false
  addDepsResult := fun _ => .ok ()

/-- The empty destination filesystem. -/
def emptyFs : Fs := fun _ => none

/-- Destination main package `ns:app`. -/
def nsApp : PackageName := { «namespace» := "ns", name := "app", version := none }

/-- Stub main package `ns:other-stub` (a stub for a component other than the
destination). -/
def nsOtherStub : PackageName := { «namespace» := "ns", name := "other-stub", version := none }

/-- Foreign transitive-dependency package `ns:util`. -/
def nsUtil : PackageName := { «namespace» := "ns", name := "util", version := none }

/-- A call context whose stub main package name `ns:plain` does not end in
`-stub`. -/
def c1Ctx : Ctx where
  stubWitRoot := ["stub"]
  destWitRoot := ["dest", "wit"]
  stub := { packageNames := [], sources := [], packageId := 0,
            mainName := { «namespace» := "ns", name := "plain", version := none } }
  dest := { packageNames := [], sources := [], packageId := 0, mainName := nsApp }
  env := baseEnv

/-- Destination stub package name `ns:app-stub` as a plain package value. -/
def nsAppStub : PackageName := { «namespace» := "ns", name := "app-stub", version := none }

/-- An environment whose self-stub regenerations return "I" (import mode) and
"N" (inline mode) while the stub root's `_stub.wit` reads as "X" - matching
neither. -/
def c4Env : Env :=
  { baseEnv with destStubImported := .ok "I", destStubInlined := .ok "N",
                 stubWitRead := .ok "X" }

/-- A call context whose stub is a self-stub by name for destination `ns:app`
(stub main package `ns:app-stub`) but not by content (environment `c4Env`). -/
def c4Ctx : Ctx where
  stubWitRoot := ["stub"]
  destWitRoot := ["dest", "wit"]
  stub := { packageNames := [(nsAppStub, 0)], sources := [(0, [["stub", "_stub.wit"]])],
            packageId := 0, mainName := nsAppStub }
  dest := { packageNames := [], sources := [], packageId := 0, mainName := nsApp }
  env := c4Env

/-- The same context with the three environment results consumed by the
content-based self-stub check replaced. -/
def Ctx.withContentCheck (c : Ctx) (imp inl sw : Except Failure String) : Ctx :=
  { c with env := { c.env with destStubImported := imp, destStubInlined := inl,
                               stubWitRead := sw } }

/-- An action whose literal content "new" will conflict with the existing
target content "old" of `c7Fs`. -/
def c7Action : OverwriteSafeAction := .WriteFile "new" ["dest", "wit", "t.wit"]

/-- A destination filesystem holding "old" at `c7Action`'s target. -/
def c7Fs : Fs := fun p => if p = ["dest", "wit", "t.wit"] then some "old" else none

/-- A call context with an empty stub package graph (nothing to copy) and a
non-self-stub main package name, for exercising the manifest step. -/
def c8Ctx : Ctx where
  stubWitRoot := ["stub"]
  destWitRoot := ["dest", "wit"]
  stub := { packageNames := [], sources := [], packageId := 0, mainName := nsOtherStub }
  dest := { packageNames := [], sources := [], packageId := 0, mainName := nsApp }
  env := baseEnv

/-- An environment that reads the stub main source file as "S" and has a
recognized manifest present. -/
def c3Env : Env :=
  { baseEnv with
      readFile := fun p => if p = ["stub", "_stub.wit"] then some "S" else none
      cargoTomlExistsAsFile := true
      isCargoComponentToml := true }

/-- A call context integrating the stub `ns:other-stub` (one source file) into
destination `ns:app`, with a recognized manifest present. -/
def c3Ctx : Ctx where
  stubWitRoot := ["stub"]
  destWitRoot := ["dest", "wit"]
  stub := { packageNames := [(nsOtherStub, 0)], sources := [(0, [["stub", "_stub.wit"]])],
            packageId := 0, mainName := nsOtherStub }
  dest := { packageNames := [], sources := [], packageId := 0, mainName := nsApp }
  env := c3Env

/-- The planned target of the single copy action of `c3Ctx`. -/
def c3Target : Path := ["dest", "wit", "deps", "ns_other-stub", "_stub.wit"]

/-- A destination filesystem already holding exactly the prospective content
at the planned target (so the run skips it as same-content). -/
def c3Fs : Fs := fun p => if p = c3Target then some "S" else none

/-- The outcome of the `c3Ctx` run on `c3Fs`: nothing newly written, yet the
planned target is handed to the manifest updater. -/
def c3Info : RunInfo :=
  { refused := [],
    plans := [(.CopyFile ["stub", "_stub.wit"] c3Target, .SkipSameContent)],
    manifestTargets := some [c3Target], targets := [c3Target] }

/-- Like `c3Env` but with no manifest present. -/
def c9Env : Env :=
  { baseEnv with readFile := fun p => if p = ["stub", "_stub.wit"] then some "S" else none }

/-- Like `c3Ctx` but without a manifest: used to exhibit a run that refuses an
overwrite yet succeeds. -/
def c9Ctx : Ctx where
  stubWitRoot := ["stub"]
  destWitRoot := ["dest", "wit"]
  stub := { packageNames := [(nsOtherStub, 0)], sources := [(0, [["stub", "_stub.wit"]])],
            packageId := 0, mainName := nsOtherStub }
  dest := { packageNames := [], sources := [], packageId := 0, mainName := nsApp }
  env := c9Env

/-- A destination filesystem holding conflicting content "OLD" at the planned
target. -/
def c9Fs : Fs := fun p => if p = c3Target then some "OLD" else none

/-- True exactly when the call's outcome is an `anyhow` error (a `Result`
error), as opposed to success or a panic. -/
def returnsErrKind (r : Except Failure RunInfo × Fs) : Bool :=
  match r.1 with
  | .error (.err _) => true
  | _ => false

/-- C1 counterexample: at the concrete stub main package name `ns:plain` (which
does not end in `-stub`), `add_stub_dependency` panics with "Unexpected stub
package name"; it does not return the naming-collision error kind (or any
error kind) as a `Result` error. -/
theorem c1_counterexample :
    returnsErrKind (add_stub_dependency c1Ctx false .NoUpdate emptyFs) = false ∧
      (add_stub_dependency c1Ctx false .NoUpdate emptyFs).1 =
        .error (.panic "Unexpected stub package name") := by
  exact ⟨rfl, rfl⟩

/-- C1 (amended): for every stub whose main package name does not end in
`-stub` (so stripping the suffix fails), `add_stub_dependency` panics with
message "Unexpected stub package name" (the `expect` on `strip_suffix`),
leaving the destination filesystem untouched, instead of returning a `Result`
error. -/
theorem c1_amended (c : Ctx) (overwrite : Bool) (policy : UpdateCargoToml) (fs : Fs)
    (h : stripSuffixStr c.stub.mainName.name "-stub" = none) :
    add_stub_dependency c overwrite policy fs =
      (.error (.panic "Unexpected stub package name"), fs) := by
  simp [add_stub_dependency, checkSelfStub, h]

/-- Witness for `c1_amended` at the concrete context `c1Ctx`. -/
theorem c1_amended_witness :
    (stripSuffixStr "plain" "-stub" = none) ∧
      add_stub_dependency c1Ctx false .NoUpdate emptyFs =
        (.error (.panic "Unexpected stub package name"), emptyFs) :=
  ⟨rfl, c1_amended c1Ctx false .NoUpdate emptyFs rfl⟩

/-- The integration scenario for C2: destination main package `ns:app`; the
stub graph holds its own main package `ns:other-stub` (id 0, one source file)
and the foreign package `ns:util` (id 1, one source file). -/
def c2Ctx : Ctx where
  stubWitRoot := ["stub"]
  destWitRoot := ["dest", "wit"]
  stub := { packageNames := [(nsOtherStub, 0), (nsUtil, 1)]
            sources := [(0, [["stub", "_stub.wit"]]),
                        (1, [["stub", "deps", "util", "util.wit"]])]
            packageId := 0
            mainName := nsOtherStub }
  dest := { packageNames := [], sources := [], packageId := 0, mainName := nsApp }
  env := baseEnv

/-- C2, evaluated at the failing input: with destination main package `ns:app`,
the foreign package `ns:util`'s file is emitted as a `CopyFileTransformed`
action whose transform strips imports of the package string "ns:ns:app-stub"
(the namespace, a colon, the Display of the whole destination package name,
then `-stub`) - not of the destination's stub package name "ns:app-stub" as
the claim states. -/
theorem c2_wrong_remover :
    buildActions c2Ctx c2Ctx.stub.packageNames =
      .ok [.CopyFile ["stub", "_stub.wit"]
             ["dest", "wit", "deps", "ns_other-stub", "_stub.wit"],
           .CopyFileTransformed ["stub", "deps", "util", "util.wit"]
             ["dest", "wit", "deps", "util", "util.wit"]
             (import_remover "ns:ns:app-stub")] ∧
      dest_stub_import_remover nsApp ≠ import_remover "ns:app-stub" := by
  exact ⟨rfl, by decide⟩

/-- C4: when the stub is a self-stub by name (its main package name strips to
the destination's main package name) but its `_stub.wit` text byte-equals
neither the regenerated import-mode nor inline-mode self-stub text,
`add_stub_dependency` fails with the ambiguous-self-stub error and leaves the
destination filesystem untouched (no file is written). -/
theorem c4_ambiguous_self_stub (c : Ctx) (overwrite : Bool) (policy : UpdateCargoToml)
    (fs : Fs) (s : String)
    (h1 : stripSuffixStr c.stub.mainName.name "-stub" = some s)
    (h2 : c.dest.mainName = { c.stub.mainName with name := s })
    (imp inl sw : String)
    (h3 : c.env.destStubImported = .ok imp)
    (h4 : c.env.destStubInlined = .ok inl)
    (h5 : c.env.stubWitRead = .ok sw)
    (h6 : sw ≠ imp) (h7 : sw ≠ inl) :
    add_stub_dependency c overwrite policy fs =
      (.error (.err .ambiguousSelfStub), fs) := by
  simp [add_stub_dependency, checkSelfStub, is_self_stub, h1, h2, h3, h4, h5, h6, h7]

/-- Witness for `c4_ambiguous_self_stub` at the concrete context `c4Ctx`. -/
theorem c4_witness :
    (stripSuffixStr "app-stub" "-stub" = some "app") ∧ ("X" ≠ "I") ∧ ("X" ≠ "N") ∧
      add_stub_dependency c4Ctx false .NoUpdate emptyFs =
        (.error (.err .ambiguousSelfStub), emptyFs) :=
  ⟨rfl, by decide, by decide,
    c4_ambiguous_self_stub c4Ctx false .NoUpdate emptyFs "app" rfl rfl
      "I" "N" "X" rfl rfl rfl (by decide) (by decide)⟩

/-- The destination-package branch of the loop contributes no action, provided
the (eagerly computed) source lookup succeeds. -/
theorem actionsForPackage_dest (c : Ctx) (pid : Nat) (srcs : List Path)
    (h : c.stub.sources.lookup pid = some srcs) :
    actionsForPackage c (c.dest.mainName, pid) = .ok [] := by
  simp [actionsForPackage, h]

/-- C5: a package in the stub's graph whose name equals the destination's main
package name contributes no action of any kind: the action list built with it
at any position of the iteration order equals the list built without it. -/
theorem c5_dest_package_elided (c : Ctx) (pid : Nat) (srcs : List Path)
    (h : c.stub.sources.lookup pid = some srcs)
    (l1 l2 : List (PackageName × Nat)) :
    buildActions c (l1 ++ (c.dest.mainName, pid) :: l2) = buildActions c (l1 ++ l2) := by
  induction l1 with
  | nil =>
    simp only [List.nil_append, buildActions, actionsForPackage_dest c pid srcs h]
    cases buildActions c l2 <;> simp
  | cons p rest ih =>
    simp only [List.cons_append, buildActions, List.append_eq]
    rw [ih]

/-- Witness for `c5_dest_package_elided`: inserting the destination package
`ns:app` in front of the foreign package of `c2Ctx` leaves the action list
unchanged. -/
theorem c5_witness :
    (c2Ctx.stub.sources.lookup 0 = some [["stub", "_stub.wit"]]) ∧
      buildActions c2Ctx ((nsApp, 0) :: [(nsUtil, 1)]) = buildActions c2Ctx [(nsUtil, 1)] :=
  ⟨rfl, c5_dest_package_elided c2Ctx 0 [["stub", "_stub.wit"]] rfl [] [(nsUtil, 1)]⟩

/-- Appending `-stub` to a string never returns the same string. -/
theorem ne_append_stub (s : String) : s ++ "-stub" ≠ s := by
  intro h
  have hlen := congrArg String.length h
  have h5 : ("-stub" : String).length = 5 := rfl
  rw [String.length_append, h5] at hlen
  omega

/-- The destination's synthesized stub package name differs from the
destination's main package name. -/
theorem destStubPackageName_ne (m : PackageName) : destStubPackageName m ≠ m := by
  intro h
  exact ne_append_stub m.name (congrArg PackageName.name h)

/-- C6: a package in the stub's graph whose name equals the destination's
synthesized stub package name contributes exactly one `WriteFile` action; its
target is `_stub.wit` inside the per-package subdirectory
`<namespace>_<name>` of the destination's dependency area, and its content is
the destination self-stub regenerated in `InlineRootTypes` mode - not a copy
of the stub's on-disk bytes. -/
theorem c6_self_stub_write (c : Ctx) (pid : Nat) (srcs : List Path)
    (h : c.stub.sources.lookup pid = some srcs)
    (w : String) (hw : c.env.inlinedSelfStubForWrite = .ok w) :
    actionsForPackage c (destStubPackageName c.dest.mainName, pid) =
      .ok [.WriteFile w (destDepsDir c ++
        [c.dest.mainName.«namespace» ++ "_" ++ (c.dest.mainName.name ++ "-stub"),
         "_stub.wit"])] := by
  have hne : ¬ ({ «namespace» := c.dest.mainName.«namespace»,
                  name := c.dest.mainName.name ++ "-stub",
                  version := c.dest.mainName.version } : PackageName) = c.dest.mainName :=
    destStubPackageName_ne c.dest.mainName
  simp [actionsForPackage, h, hw, destStubPackageName, hne]

/-- Witness for `c6_self_stub_write` at the concrete context `c4Ctx`. -/
theorem c6_witness :
    (c4Ctx.stub.sources.lookup 0 = some [["stub", "_stub.wit"]]) ∧
      actionsForPackage c4Ctx (destStubPackageName nsApp, 0) =
        .ok [.WriteFile "inlined-self-stub"
          ["dest", "wit", "deps", "ns_app-stub", "_stub.wit"]] :=
  ⟨rfl, c6_self_stub_write c4Ctx 0 [["stub", "_stub.wit"]] rfl "inlined-self-stub" rfl⟩

/-- The other-package branch depends only on the roots and the destination
main package name. -/
theorem transformedActions_congr (c1 c2 : Ctx)
    (h1 : c1.stubWitRoot = c2.stubWitRoot) (h2 : c1.destWitRoot = c2.destWitRoot)
    (h5 : c1.dest.mainName = c2.dest.mainName) :
    ∀ l, transformedActions c1 l = transformedActions c2 l := by
  intro l
  induction l with
  | nil => rfl
  | cons s rest ih =>
    simp only [transformedActions, h1, h2, h5, ih]

/-- The loop body depends only on the roots, the stub graph, the destination
main package name, and the inline regeneration result. -/
theorem actionsForPackage_congr (c1 c2 : Ctx)
    (h1 : c1.stubWitRoot = c2.stubWitRoot) (h2 : c1.destWitRoot = c2.destWitRoot)
    (h3 : c1.stub.sources = c2.stub.sources) (h4 : c1.stub.packageId = c2.stub.packageId)
    (h5 : c1.dest.mainName = c2.dest.mainName)
    (h6 : c1.env.inlinedSelfStubForWrite = c2.env.inlinedSelfStubForWrite)
    (p : PackageName × Nat) :
    actionsForPackage c1 p = actionsForPackage c2 p := by
  simp only [actionsForPackage, destDepsDir, h1, h2, h3, h4, h5, h6,
    transformedActions_congr c1 c2 h1 h2 h5]

/-- Replacing the content-check inputs does not change the built action
list. -/
theorem buildActions_withContentCheck (c : Ctx) (imp inl sw : Except Failure String)
    (l : List (PackageName × Nat)) :
    buildActions (c.withContentCheck imp inl sw) l = buildActions c l := by
  induction l with
  | nil => rfl
  | cons p rest ih =>
    simp only [buildActions, ih,
      actionsForPackage_congr (c.withContentCheck imp inl sw) c rfl rfl rfl rfl rfl rfl p]

/-- Replacing the content-check inputs does not change action execution. -/
theorem runActions_withContentCheck (c : Ctx) (imp inl sw : Except Failure String)
    (ow : Bool) (l : List OverwriteSafeAction) :
    ∀ fs, runActions (c.withContentCheck imp inl sw).env ow l fs =
      runActions c.env ow l fs := by
  induction l with
  | nil => intro fs; rfl
  | cons a rest ih =>
    intro fs
    have he : execStep (c.withContentCheck imp inl sw).env ow a fs = execStep c.env ow a fs :=
      rfl
    simp only [runActions, he]
    cases hE : execStep c.env ow a fs with
    | error e => rfl
    | ok t =>
      rcases t with ⟨r, pl, fs1⟩
      simp only [ih fs1]

/-- C10: when the stub is not a self-stub by name (its stripped main package
name differs from the destination's main package name), the outcome of
`add_stub_dependency` is entirely independent of the content-based self-stub
check's results: replacing them - in particular by failures such as an
unreadable `_stub.wit` or a failed regeneration - yields the very same result,
because the short-circuiting name check guards propagation of the
content-check `Result`. -/
theorem c10_content_check_discarded (c : Ctx) (overwrite : Bool)
    (policy : UpdateCargoToml) (fs : Fs) (s : String)
    (h1 : stripSuffixStr c.stub.mainName.name "-stub" = some s)
    (h2 : c.dest.mainName ≠ { c.stub.mainName with name := s })
    (imp inl sw : Except Failure String) :
    add_stub_dependency (c.withContentCheck imp inl sw) overwrite policy fs =
      add_stub_dependency c overwrite policy fs := by
  have hck1 : checkSelfStub (c.withContentCheck imp inl sw) = .ok () := by
    simp [checkSelfStub, Ctx.withContentCheck, h1, h2]
  have hck2 : checkSelfStub c = .ok () := by
    simp [checkSelfStub, h1, h2]
  unfold add_stub_dependency
  rw [hck1, hck2]
  have hb : buildActions (c.withContentCheck imp inl sw)
      ((c.withContentCheck imp inl sw).stub.packageNames) =
      buildActions c c.stub.packageNames :=
    buildActions_withContentCheck c imp inl sw c.stub.packageNames
  rw [hb]
  cases hB : buildActions c c.stub.packageNames with
  | error e => rfl
  | ok actions =>
    dsimp only
    have hr : runActions (c.withContentCheck imp inl sw).env overwrite actions fs =
        runActions c.env overwrite actions fs :=
      runActions_withContentCheck c imp inl sw overwrite actions fs
    have hm : manifestStep (c.withContentCheck imp inl sw).env
        ((c.withContentCheck imp inl sw).destWitRoot) policy
        (actions.map OverwriteSafeAction.target) =
        manifestStep c.env c.destWitRoot policy (actions.map OverwriteSafeAction.target) :=
      rfl
    rw [hr, hm]

/-- Witness for `c10_content_check_discarded`: with the non-self-stub context
`c2Ctx`, replacing the content check's inputs by failures leaves the call's
outcome unchanged. -/
theorem c10_witness :
    (stripSuffixStr "other-stub" "-stub" = some "other") ∧
      (nsApp ≠ { nsOtherStub with name := "other" }) ∧
      add_stub_dependency
          (c2Ctx.withContentCheck (.error (.panic "io")) (.ok "x")
            (.error (.err .sourceRead))) false .NoUpdate emptyFs =
        add_stub_dependency c2Ctx false .NoUpdate emptyFs :=
  ⟨rfl, by decide,
    c10_content_check_discarded c2Ctx false .NoUpdate emptyFs "other" rfl (by decide)
      (.error (.panic "io")) (.ok "x") (.error (.err .sourceRead))⟩

/-- C7: for an action whose target file exists with content differing from
the prospective content, executing it with `overwrite = false` leaves the
filesystem unchanged and hands the action back as refused (without failing),
while `overwrite = true` replaces the target with exactly the prospective
content. -/
theorem c7_overwrite_gating (env : Env) (a : OverwriteSafeAction) (fs : Fs)
    (c0 c : String) (h1 : fs a.target = some c0)
    (h2 : prospectiveContent env a = .ok c) (h3 : c0 ≠ c) :
    execStep env false a fs = .ok (some a, .Overwrite, fs) ∧
      execStep env true a fs = .ok (none, .Overwrite, Fs.write fs a.target c) ∧
      Fs.write fs a.target c a.target = some c := by
  refine ⟨?_, ?_, ?_⟩
  · simp [execStep, h1, h2, planFor, h3]
  · simp [execStep, h1, h2, planFor, h3]
  · simp [Fs.write]

/-- Witness for `c7_overwrite_gating` at a concrete conflicting target. -/
theorem c7_witness :
    (c7Fs c7Action.target = some "old") ∧
      (prospectiveContent baseEnv c7Action = .ok "new") ∧ ("old" ≠ "new") ∧
      (execStep baseEnv false c7Action c7Fs = .ok (some c7Action, .Overwrite, c7Fs) ∧
        execStep baseEnv true c7Action c7Fs =
          .ok (none, .Overwrite, Fs.write c7Fs c7Action.target "new") ∧
        Fs.write c7Fs c7Action.target "new" c7Action.target = some "new") :=
  ⟨rfl, rfl, by decide,
    c7_overwrite_gating baseEnv c7Action c7Fs "old" "new" rfl rfl (by decide)⟩

/-- C8: reaching the manifest step with policy `Update` and no manifest file
at the expected location (the destination root's parent exists, `Cargo.toml`
is absent) fails the call with the missing-manifest error; with policy
`UpdateIfExists` the same call succeeds and the manifest updater is not
invoked. -/
theorem c8_manifest_policy (c : Ctx) (ow : Bool) (fs fs1 : Fs)
    (acts refused : List OverwriteSafeAction)
    (plans : List (OverwriteSafeAction × OverwriteSafeActionPlan)) (pr : Path)
    (hck : checkSelfStub c = .ok ())
    (hba : buildActions c c.stub.packageNames = .ok acts)
    (hra : runActions c.env ow acts fs = (.ok (refused, plans), fs1))
    (hp : pathParent c.destWitRoot = some pr)
    (hcargo : c.env.cargoTomlExistsAsFile = false) :
    add_stub_dependency c ow .Update fs = (.error (.err .cargoTomlMissing), fs1) ∧
      add_stub_dependency c ow .UpdateIfExists fs =
        (.ok { refused := refused, plans := plans, manifestTargets := none,
               targets := acts.map OverwriteSafeAction.target }, fs1) := by
  constructor
  · simp [add_stub_dependency, hck, hba, hra, manifestStep, hp, hcargo]
  · simp [add_stub_dependency, hck, hba, hra, manifestStep, hp, hcargo]

/-- Witness for `c8_manifest_policy` at the concrete context `c8Ctx`. -/
theorem c8_witness :
    (checkSelfStub c8Ctx = .ok ()) ∧ (pathParent ["dest", "wit"] = some ["dest"]) ∧
      (c8Ctx.env.cargoTomlExistsAsFile = false) ∧
      add_stub_dependency c8Ctx false .Update emptyFs =
        (.error (.err .cargoTomlMissing), emptyFs) ∧
      add_stub_dependency c8Ctx false .UpdateIfExists emptyFs =
        (.ok { refused := [], plans := [], manifestTargets := none, targets := [] },
         emptyFs) :=
  ⟨rfl, rfl, rfl,
    c8_manifest_policy c8Ctx false emptyFs emptyFs [] [] [] ["dest"] rfl rfl rfl rfl rfl⟩

/-- Inversion of a successful `add_stub_dependency` run into its pipeline
stages. -/
theorem add_stub_dependency_ok_inv (c : Ctx) (ow : Bool) (pol : UpdateCargoToml)
    (fs fs1 : Fs) (info : RunInfo)
    (h : add_stub_dependency c ow pol fs = (.ok info, fs1)) :
    checkSelfStub c = .ok () ∧
      ∃ actions refused plans mt,
        buildActions c c.stub.packageNames = .ok actions ∧
        runActions c.env ow actions fs = (.ok (refused, plans), fs1) ∧
        manifestStep c.env c.destWitRoot pol (actions.map OverwriteSafeAction.target) =
          .ok mt ∧
        info = { refused := refused, plans := plans, manifestTargets := mt,
                 targets := actions.map OverwriteSafeAction.target } := by
  unfold add_stub_dependency at h
  cases hck : checkSelfStub c with
  | error e => rw [hck] at h; exact absurd h (by simp)
  | ok u =>
    cases u
    rw [hck] at h
    cases hba : buildActions c c.stub.packageNames with
    | error e => rw [hba] at h; exact absurd h (by simp)
    | ok actions =>
      rw [hba] at h
      dsimp only at h
      rcases hra : runActions c.env ow actions fs with ⟨res, fsx⟩
      rw [hra] at h
      cases res with
      | error e => exact absurd h (by simp)
      | ok t =>
        rcases t with ⟨refused, plans⟩
        dsimp only at h
        cases hms : manifestStep c.env c.destWitRoot pol
            (actions.map OverwriteSafeAction.target) with
        | error e => rw [hms] at h; exact absurd h (by simp)
        | ok mt =>
          rw [hms] at h
          rw [Prod.mk.injEq] at h
          obtain ⟨hok, hfs⟩ := h
          rw [Except.ok.injEq] at hok
          subst hfs
          exact ⟨rfl, actions, refused, plans, mt, rfl, hra, hms, hok.symm⟩

/-- Recomposition: successful pipeline stages yield a successful call. -/
theorem add_stub_dependency_ok_intro (c : Ctx) (ow : Bool) (pol : UpdateCargoToml)
    (fs fs1 : Fs) (actions refused : List OverwriteSafeAction)
    (plans : List (OverwriteSafeAction × OverwriteSafeActionPlan))
    (mt : Option (List Path))
    (hck : checkSelfStub c = .ok ())
    (hba : buildActions c c.stub.packageNames = .ok actions)
    (hra : runActions c.env ow actions fs = (.ok (refused, plans), fs1))
    (hms : manifestStep c.env c.destWitRoot pol (actions.map OverwriteSafeAction.target) =
      .ok mt) :
    add_stub_dependency c ow pol fs =
      (.ok { refused := refused, plans := plans, manifestTargets := mt,
             targets := actions.map OverwriteSafeAction.target }, fs1) := by
  unfold add_stub_dependency
  rw [hck, hba]
  dsimp only
  rw [hra, hms]

/-- The manifest step hands over exactly the target list it was given. -/
theorem manifestStep_some (env : Env) (root : Path) (pol : UpdateCargoToml)
    (targets l : List Path) (h : manifestStep env root pol targets = .ok (some l)) :
    l = targets := by
  unfold manifestStep at h
  repeat' split at h
  all_goals first
    | (injection h with h2; injection h2 with h3; exact h3.symm)
    | simp at h

/-- C3 counterexample: a run (`c3Ctx` on `c3Fs`) in which the single planned
target is skipped as same-content - so the set of newly written paths is
empty - still hands the full planned target list to the manifest updater. -/
theorem c3_counterexample :
    add_stub_dependency c3Ctx false .Update c3Fs = (.ok c3Info, c3Fs) ∧
      c3Info.plans =
        [(.CopyFile ["stub", "_stub.wit"] c3Target, .SkipSameContent)] ∧
      c3Info.manifestTargets ≠ some ([] : List Path) := by
  exact ⟨rfl, rfl, by decide⟩

/-- C3 (amended): whenever `add_stub_dependency` succeeds and invokes the
manifest updater, the set of paths handed over is exactly the full planned
target list (the targets of all actions), regardless of which targets were
newly written, skipped as same-content, or refused. -/
theorem c3_amended (c : Ctx) (ow : Bool) (pol : UpdateCargoToml) (fs fs1 : Fs)
    (info : RunInfo) (l : List Path)
    (h : add_stub_dependency c ow pol fs = (.ok info, fs1))
    (hm : info.manifestTargets = some l) :
    l = info.targets := by
  obtain ⟨-, actions, refused, plans, mt, -, -, hms, hinfo⟩ :=
    add_stub_dependency_ok_inv c ow pol fs fs1 info h
  subst hinfo
  exact manifestStep_some c.env c.destWitRoot pol (actions.map OverwriteSafeAction.target) l
    (hm ▸ hms)

/-- Witness for `c3_amended` at the concrete skip-only run of `c3Ctx`. -/
theorem c3_amended_witness : ([c3Target] : List Path) = c3Info.targets :=
  c3_amended c3Ctx false .Update c3Fs c3Fs c3Info [c3Target] rfl rfl

/-- A Create disposition means the target was absent. -/
theorem planFor_create (o : Option String) (c : String)
    (h : planFor o c = .Create) : o = none := by
  cases o with
  | none => rfl
  | some e =>
    by_cases he : e = c <;> simp [planFor, he] at h

/-- A SkipSameContent disposition means the target already held exactly the
prospective content. -/
theorem planFor_skip (o : Option String) (c : String)
    (h : planFor o c = .SkipSameContent) : o = some c := by
  cases o with
  | none => simp [planFor] at h
  | some e =>
    by_cases he : e = c
    · rw [he]
    · simp [planFor, he] at h

/-- Executing one action with `overwrite = false` without refusal preserves
every existing file value. -/
theorem execStep_false_preserves (env : Env) (a : OverwriteSafeAction) (fs fsa : Fs)
    (pl : OverwriteSafeActionPlan)
    (h : execStep env false a fs = .ok (none, pl, fsa)) :
    ∀ t v, fs t = some v → fsa t = some v := by
  intro t v hv
  unfold execStep at h
  cases hp : prospectiveContent env a with
  | error e => rw [hp] at h; simp at h
  | ok cc =>
    rw [hp] at h
    dsimp only at h
    cases hpl : planFor (fs a.target) cc with
    | Create =>
      rw [hpl] at h
      rw [Except.ok.injEq, Prod.mk.injEq] at h
      obtain ⟨-, h2⟩ := h
      rw [Prod.mk.injEq] at h2
      obtain ⟨-, hfsa⟩ := h2
      subst hfsa
      have hnone := planFor_create _ _ hpl
      have hne : t ≠ a.target := by
        intro he
        rw [he, hnone] at hv
        cases hv
      simp [Fs.write, hne]
      exact hv
    | SkipSameContent =>
      rw [hpl] at h
      rw [Except.ok.injEq, Prod.mk.injEq] at h
      obtain ⟨-, h2⟩ := h
      rw [Prod.mk.injEq] at h2
      obtain ⟨-, hfsa⟩ := h2
      subst hfsa
      exact hv
    | Overwrite =>
      rw [hpl] at h
      simp at h

/-- A refusal-free `overwrite = false` run preserves every existing file
value. -/
theorem runActions_preserves (env : Env) (l : List OverwriteSafeAction) :
    ∀ (fs fs1 : Fs) plans,
      runActions env false l fs = (.ok ([], plans), fs1) →
      ∀ t v, fs t = some v → fs1 t = some v := by
  induction l with
  | nil =>
    intro fs fs1 plans h t v hv
    simp only [runActions] at h
    rw [Prod.mk.injEq] at h
    obtain ⟨-, hfs⟩ := h
    rw [← hfs]
    exact hv
  | cons a rest ih =>
    intro fs fs1 plans h t v hv
    simp only [runActions] at h
    cases hE : execStep env false a fs with
    | error e => rw [hE] at h; simp at h
    | ok trip =>
      rcases trip with ⟨r, pl, fsa⟩
      rw [hE] at h
      dsimp only at h
      rcases hR : runActions env false rest fsa with ⟨res2, fs2⟩
      rw [hR] at h
      cases res2 with
      | error e => simp at h
      | ok t2 =>
        rcases t2 with ⟨refused2, plans2⟩
        dsimp only at h
        rw [Prod.mk.injEq] at h
        obtain ⟨hok, hfs2⟩ := h
        rw [Except.ok.injEq, Prod.mk.injEq] at hok
        obtain ⟨hrefused, hplans⟩ := hok
        subst hfs2
        cases r with
        | some x => simp at hrefused
        | none =>
          simp only [Option.elim] at hrefused
          subst hrefused
          exact ih fsa _ plans2 hR t v
            (execStep_false_preserves env a fs fsa pl hE t v hv)

/-- After a refusal-free `overwrite = false` run, every action's target holds
exactly its prospective content. -/
theorem runActions_final_content (env : Env) (l : List OverwriteSafeAction) :
    ∀ (fs fs1 : Fs) plans,
      runActions env false l fs = (.ok ([], plans), fs1) →
      ∀ a ∈ l, ∃ cc, prospectiveContent env a = .ok cc ∧ fs1 a.target = some cc := by
  induction l with
  | nil => intro fs fs1 plans h a ha; cases ha
  | cons b rest ih =>
    intro fs fs1 plans h a ha
    simp only [runActions] at h
    cases hE : execStep env false b fs with
    | error e => rw [hE] at h; simp at h
    | ok trip =>
      rcases trip with ⟨r, pl, fsa⟩
      rw [hE] at h
      dsimp only at h
      rcases hR : runActions env false rest fsa with ⟨res2, fs2⟩
      rw [hR] at h
      cases res2 with
      | error e => simp at h
      | ok t2 =>
        rcases t2 with ⟨refused2, plans2⟩
        dsimp only at h
        rw [Prod.mk.injEq] at h
        obtain ⟨hok, hfs2⟩ := h
        rw [Except.ok.injEq, Prod.mk.injEq] at hok
        obtain ⟨hrefused, hplans⟩ := hok
        subst hfs2
        cases r with
        | some x => simp at hrefused
        | none =>
          simp only [Option.elim] at hrefused
          subst hrefused
          rcases List.mem_cons.mp ha with hab | harest
          · subst hab
            unfold execStep at hE
            cases hp : prospectiveContent env a with
            | error e => rw [hp] at hE; simp at hE
            | ok cc =>
              rw [hp] at hE
              dsimp only at hE
              refine ⟨cc, rfl, ?_⟩
              cases hpl : planFor (fs a.target) cc with
              | Create =>
                rw [hpl] at hE
                rw [Except.ok.injEq, Prod.mk.injEq] at hE
                obtain ⟨-, hE2⟩ := hE
                rw [Prod.mk.injEq] at hE2
                obtain ⟨-, hfsa⟩ := hE2
                have hstart : fsa a.target = some cc := by
                  rw [← hfsa]
                  simp [Fs.write]
                exact runActions_preserves env rest fsa _ plans2 hR a.target cc hstart
              | SkipSameContent =>
                rw [hpl] at hE
                rw [Except.ok.injEq, Prod.mk.injEq] at hE
                obtain ⟨-, hE2⟩ := hE
                rw [Prod.mk.injEq] at hE2
                obtain ⟨-, hfsa⟩ := hE2
                have hstart : fsa a.target = some cc := by
                  rw [← hfsa]
                  exact planFor_skip _ _ hpl
                exact runActions_preserves env rest fsa _ plans2 hR a.target cc hstart
              | Overwrite =>
                rw [hpl] at hE
                simp at hE
          · exact ih fsa _ plans2 hR a harest

/-- When every action's target already holds its prospective content, the run
refuses nothing, skips everything, and leaves the filesystem unchanged. -/
theorem runActions_all_skip (env : Env) (ow : Bool) (l : List OverwriteSafeAction) :
    ∀ fs, (∀ a ∈ l, ∃ cc, prospectiveContent env a = .ok cc ∧ fs a.target = some cc) →
      runActions env ow l fs =
        (.ok ([], l.map fun a => (a, OverwriteSafeActionPlan.SkipSameContent)), fs) := by
  induction l with
  | nil => intro fs h; rfl
  | cons a rest ih =>
    intro fs h
    obtain ⟨cc, hp, hf⟩ := h a (List.mem_cons_self a rest)
    have he : execStep env ow a fs = .ok (none, .SkipSameContent, fs) := by
      unfold execStep
      rw [hp, hf]
      simp [planFor]
    simp only [runActions, he, ih fs (fun b hb => h b (List.mem_cons_of_mem a hb))]
    simp

/-- C9 counterexample: at `c9Ctx` on `c9Fs`, the first `overwrite = false` run
succeeds while refusing the conflicting overwrite, and the second run on the
resulting filesystem reports the disposition `Overwrite` again - not
`SkipSameContent` - so the claim fails for source trees whose first run
refused a write. -/
theorem c9_counterexample :
    (add_stub_dependency c9Ctx false .NoUpdate c9Fs).1 =
      .ok { refused := [.CopyFile ["stub", "_stub.wit"] c3Target],
            plans := [(.CopyFile ["stub", "_stub.wit"] c3Target, .Overwrite)],
            manifestTargets := none, targets := [c3Target] } ∧
      (add_stub_dependency c9Ctx false .NoUpdate
          (add_stub_dependency c9Ctx false .NoUpdate c9Fs).2).1 =
      .ok { refused := [.CopyFile ["stub", "_stub.wit"] c3Target],
            plans := [(.CopyFile ["stub", "_stub.wit"] c3Target, .Overwrite)],
            manifestTargets := none, targets := [c3Target] } ∧
      OverwriteSafeActionPlan.Overwrite ≠ OverwriteSafeActionPlan.SkipSameContent := by
  exact ⟨rfl, rfl, by decide⟩

/-- C9 (amended): after one successful `overwrite = false` run of
`add_stub_dependency` that refused no overwrites, a second run with
`overwrite = false` on the unchanged source tree performs zero writes (it
returns the filesystem unchanged) and assigns every planned target the
SkipSameContent disposition. -/
theorem c9_amended (c : Ctx) (pol : UpdateCargoToml) (fs fs1 : Fs) (info1 : RunInfo)
    (h1 : add_stub_dependency c false pol fs = (.ok info1, fs1))
    (h2 : info1.refused = []) :
    ∃ info2 : RunInfo,
      add_stub_dependency c false pol fs1 = (.ok info2, fs1) ∧
      info2.refused = [] ∧
      ∀ p ∈ info2.plans, p.2 = OverwriteSafeActionPlan.SkipSameContent := by
  obtain ⟨hck, actions, refused, plans, mt, hba, hra, hms, hinfo⟩ :=
    add_stub_dependency_ok_inv c false pol fs fs1 info1 h1
  subst hinfo
  dsimp only at h2
  subst h2
  have hcontent := runActions_final_content c.env actions fs fs1 plans hra
  have hskip := runActions_all_skip c.env false actions fs1 hcontent
  refine ⟨{ refused := [], plans := actions.map fun a => (a, .SkipSameContent),
            manifestTargets := mt, targets := actions.map OverwriteSafeAction.target },
    ?_, rfl, ?_⟩
  · exact add_stub_dependency_ok_intro c false pol fs1 fs1 actions []
      (actions.map fun a => (a, .SkipSameContent)) mt hck hba hskip hms
  · intro p hp
    rcases List.mem_map.mp hp with ⟨a, -, rfl⟩
    rfl

/-- Witness for `c9_amended` at the concrete context `c8Ctx` (whose first run
refuses nothing). -/
theorem c9_amended_witness :
    ∃ info2 : RunInfo,
      add_stub_dependency c8Ctx false .NoUpdate emptyFs = (.ok info2, emptyFs) ∧
      info2.refused = [] ∧
      ∀ p ∈ info2.plans, p.2 = OverwriteSafeActionPlan.SkipSameContent :=
  c9_amended c8Ctx .NoUpdate emptyFs emptyFs
    { refused := [], plans := [], manifestTargets := none, targets := [] } rfl rfl

end StubGen
